import Mathlib

/-!
Shallow embedding of `src/examples/cpp/aot_inductor/resnet/src/resnet_handler.cc`
(namespace `resnet`, class `ResnetCppHandler`), a TorchServe C++ handler that
preprocesses a batch of requests into a token tensor, runs an AOTInductor
runner, and postprocesses output rows into labelled responses.

Modelling conventions:
- Payload bytes (`std::vector<byte>`) are modelled as `String` (the code turns
  them into a string with `torchserve::Converter::VectorToStr` anyway).
- Token ids and logits are modelled as `Int` (the code uses `int` token ids and
  tensor scalars; floating point logits are abstracted to an ordered type).
- `std::map<uint8_t, std::string>` (`idx_to_req_id.second`) is an association
  list sorted by key, with insert-or-assign; the `uint8_t` counter `idx` is a
  `Nat` reduced modulo 256 at each increment.
- `response_batch` (an unordered map from request id to response pointer) is an
  association list; a `none` value is a freshly constructed, still pending
  `InferenceResponse`. Every call to `SetResponse` is additionally recorded in
  an event list, so that "the response is set exactly once" is expressible.
- C++ exceptions thrown by external collaborators (the SentencePiece tokenizer,
  torch tensor ops, the runner) are modelled by `Except` / `Option` results fed
  in as parameters; each catch branch of the source maps to the corresponding
  error constructor.
-/

namespace Resnet

/-- `torchserve::PayloadType` string constants. These are declared in the
TorchServe host library, outside this repository; the claims do not depend on
their literal values, only on which constant each lookup uses. -/
def kPARAMETER_NAME_DATA : String := "data"

/-- TorchServe constant for the fallback body parameter name. -/
def kPARAMETER_NAME_BODY : String := "body"

/-- TorchServe constant for the data-type header name. -/
def kHEADER_NAME_DATA_TYPE : String := "data_type"

/-- TorchServe constant for the body-type header name. -/
def kHEADER_NAME_BODY_TYPE : String := "body_type"

/-- TorchServe content-type constant used by the empty-payload response. -/
def kCONTENT_TYPE_TEXT : String := "text"

/-- TorchServe data-type constant used by the other responses. -/
def kDATA_TYPE_STRING : String := "string"

/-- The kind of C++ exception an external call threw: the handler catches
`std::runtime_error` and `c10::Error` separately and produces different
response bodies. -/
inductive CppError where
  | runtimeError
  | c10Error
deriving Repr, DecidableEq

/-- One `torchserve::InferenceRequest`: request id, `parameters` map
(parameter name to payload) and `headers` map (header name to value). -/
structure InferenceRequest where
  request_id : String
  parameters : List (String × String)
  headers : List (String × String)
deriving Repr, DecidableEq

/-- A terminal response as produced by `InferenceResponse::SetResponse(code,
headerKey, contentType, msg)`. -/
structure Response where
  code : Nat
  headerKey : String
  contentType : String
  body : String
deriving Repr, DecidableEq

/-- The response set on the empty-payload path of `Preprocess`
(`SetResponse(500, "data_type", kCONTENT_TYPE_TEXT, "Empty payload")`). -/
def emptyPayloadResponse : Response :=
  { code := 500, headerKey := "data_type", contentType := kCONTENT_TYPE_TEXT,
    body := "Empty payload" }

/-- The response set by the catch branches of `Preprocess` when tokenization
(or any other statement in the try block) throws. -/
def tokenizeFailResponse : CppError → Response
  | .runtimeError =>
      { code := 500, headerKey := "data_type", contentType := kDATA_TYPE_STRING,
        body := "runtime_error, failed to load tensor" }
  | .c10Error =>
      { code := 500, headerKey := "data_type", contentType := kDATA_TYPE_STRING,
        body := "c10 error, failed to load tensor" }

/-- The response set by the catch branches of `Postprocess`. -/
def postprocessFailResponse : CppError → Response
  | .runtimeError =>
      { code := 500, headerKey := "data_type", contentType := kDATA_TYPE_STRING,
        body := "runtime_error, failed to postprocess tensor" }
  | .c10Error =>
      { code := 500, headerKey := "data_type", contentType := kDATA_TYPE_STRING,
        body := "c10 error, failed to postprocess tensor" }

/-- The handler instance state that `Preprocess`/`Postprocess` read:
`max_length_`, `sentence_piece_.pad_id()`, the tokenizer
`sentence_piece_.Encode` (an external collaborator, modelled as a function
that either returns the token ids or throws), and `mapping_json_` (the
`index_to_name.json` object, mapping class-index strings to label strings). -/
structure Handler where
  maxLength : Nat
  padId : Int
  tokenize : String → Except CppError (List Int)
  labelMap : List (String × String)

/-- Insert-or-assign on a key-sorted association list: the model of
`std::map<uint8_t, std::string>::operator[]` followed by assignment.
Iteration order of the resulting list is ascending key order, as for
`std::map`. -/
def mapAssign (m : List (Nat × String)) (k : Nat) (v : String) :
    List (Nat × String) :=
  match m with
  | [] => [(k, v)]
  | (k0, v0) :: rest =>
    if k < k0 then (k, v) :: (k0, v0) :: rest
    else if k = k0 then (k, v) :: rest
    else (k0, v0) :: mapAssign rest k v

/-- Insert-or-assign on the response batch keyed by request id (the model of
`(*response_batch)[request.request_id] = ...` and of `SetResponse` on the
stored pointer). `none` models a freshly constructed pending response. -/
def rbSet (m : List (String × Option Response)) (k : String)
    (v : Option Response) : List (String × Option Response) :=
  match m with
  | [] => [(k, v)]
  | (k0, v0) :: rest =>
    if k = k0 then (k, v) :: rest else (k0, v0) :: rbSet rest k v

/-- The mutable state threaded through the `Preprocess` loop: the rows pushed
into `batch_ivalue`, the comma-joined id string `idx_to_req_id.first`, the
slot map `idx_to_req_id.second`, the `uint8_t` counter `idx`, the response
batch, and the list of `SetResponse` events issued so far. -/
structure PreState where
  batch_ivalue : List (List Int)
  idxStr : String
  idxMap : List (Nat × String)
  idx : Nat
  responses : List (String × Option Response)
  events : List (String × Response)
deriving Repr, DecidableEq

/-- The initial per-batch state. -/
def initState : PreState :=
  { batch_ivalue := [], idxStr := "", idxMap := [], idx := 0, responses := [],
    events := [] }

/-- Record a `SetResponse` call: update the response batch entry and append
the event. -/
def emitResponse (s : PreState) (id : String) (r : Response) : PreState :=
  { s with responses := rbSet s.responses id (some r),
           events := s.events ++ [(id, r)] }

/-- Payload extraction of `Preprocess` (source lines 78 to 96): look up the
`data` parameter together with the `data_type` header; only when the `data`
parameter is absent, fall back to the `body` parameter and `body_type`
header; if the chosen parameter or the chosen header is absent, the payload
is empty. -/
def findPayload (req : InferenceRequest) : Option String :=
  let data_it := req.parameters.lookup kPARAMETER_NAME_DATA
  let dtype_it := req.headers.lookup kHEADER_NAME_DATA_TYPE
  let p :=
    if data_it.isNone then
      (req.parameters.lookup kPARAMETER_NAME_BODY,
       req.headers.lookup kHEADER_NAME_BODY_TYPE)
    else (data_it, dtype_it)
  match p with
  | (some d, some _) => some d
  | _ => none

/-- The two statements at the top of the `Preprocess` loop body, executed for
every request: create the pending response entry for the request id, and
extend the comma-joined id string `idx_to_req_id.first`. -/
def stepCommon (s : PreState) (req : InferenceRequest) : PreState :=
  { s with
    responses := rbSet s.responses req.request_id none,
    idxStr :=
      if s.idxStr.isEmpty then req.request_id
      else s.idxStr ++ "," ++ req.request_id }

/-- One iteration of the `Preprocess` loop (source lines 70 to 129) on a
single request: create the pending response entry, extend the id string,
extract the payload (empty payload sets a 500 response and skips the
request), tokenize (a throw is caught and sets a 500 response), pad short
sequences with `pad_id` up to `max_length_` (long sequences are only
logged), then build the row with `torch::from_blob(token_ids.data(),
max_length_)` — which reads exactly `max_length_` elements — push it and
record `idx_to_req_id.second[idx++] = request_id` with `uint8_t`
wrap-around. -/
def preStep (h : Handler) (s : PreState) (req : InferenceRequest) : PreState :=
  let s := stepCommon s req
  match findPayload req with
  | none => emitResponse s req.request_id emptyPayloadResponse
  | some msg =>
    match h.tokenize msg with
    | .error e => emitResponse s req.request_id (tokenizeFailResponse e)
    | .ok token_ids =>
      let len := token_ids.length
      let token_ids :=
        if len > h.maxLength then token_ids
        else if len < h.maxLength then
          token_ids ++ List.replicate (h.maxLength - len) h.padId
        else token_ids
      let row := token_ids.take h.maxLength
      { s with
        batch_ivalue := s.batch_ivalue ++ [row],
        idxMap := mapAssign s.idxMap s.idx req.request_id,
        idx := (s.idx + 1) % 256 }

/-- The `Preprocess` loop over the whole request batch. -/
def preLoop (h : Handler) (s : PreState) : List InferenceRequest → PreState
  | [] => s
  | req :: rest => preLoop h (preStep h s req) rest

/-- `ResnetCppHandler::Preprocess` on a batch, starting from the fresh
per-batch state. -/
def Preprocess (h : Handler) (batch : List InferenceRequest) : PreState :=
  preLoop h initState batch

/-- Whether a request passes preprocessing (payload found and tokenizer did
not throw), i.e. whether the loop body reaches the `emplace_back`. -/
def passes (h : Handler) (req : InferenceRequest) : Bool :=
  match findPayload req with
  | none => false
  | some msg =>
    match h.tokenize msg with
    | .error _ => false
    | .ok _ => true

/-- The row a passing request contributes to `batch_ivalue`. -/
def rowOf (h : Handler) (req : InferenceRequest) : List Int :=
  match findPayload req with
  | none => []
  | some msg =>
    match h.tokenize msg with
    | .error _ => []
    | .ok token_ids =>
      let len := token_ids.length
      let padded :=
        if len > h.maxLength then token_ids
        else if len < h.maxLength then
          token_ids ++ List.replicate (h.maxLength - len) h.padId
        else token_ids
      padded.take h.maxLength

/-- The `SetResponse` events `Preprocess` issues for one request: exactly one
for a failing request, none for a passing one. -/
def preEvent (h : Handler) (req : InferenceRequest) : List (String × Response) :=
  match findPayload req with
  | none => [(req.request_id, emptyPayloadResponse)]
  | some msg =>
    match h.tokenize msg with
    | .error e => [(req.request_id, tokenizeFailResponse e)]
    | .ok _ => []

/-- Number of requests of a batch that pass preprocessing. -/
def passCount (h : Handler) (batch : List InferenceRequest) : Nat :=
  (batch.filter (passes h)).length

/-! ## Inference -/

/-- Outcome of `runner->run(inputs.toTensorVector())`: either the vector of
output tensors (each a list of rows of logits) or a thrown exception, which
`Inference` catches and logs. -/
inductive RunnerOutcome where
  | ok (outs : List (List (List Int)))
  | err (e : CppError)

/-- The value `Inference` yields when control falls off the end of the
function after a catch branch (the function has no return statement there, so
C++ leaves the returned `c10::IValue` unspecified; the spec describes it as a
default/uninitialized value). The same value stands in for the unspecified
result of indexing `[0]` into an empty output vector. -/
def defaultIValue : List (List Int) := []

/-- `ResnetCppHandler::Inference` (source lines 134 to 155): cast the model
pointer to the device-appropriate runner type (semantically irrelevant), run
it on the batch, and return element `[0]` of the returned tensor vector; a
thrown `std::runtime_error` or `c10::Error` is caught, logged, and control
falls off the end of the function. -/
def Inference (run : RunnerOutcome) : List (List Int) :=
  match run with
  | .ok outs => outs.headD defaultIValue
  | .err _ => defaultIValue

/-! ## Postprocess -/

/-- First index of a maximal element: the model of
`torch::argmax(out, 1).item<int>()` on one row (torch returns the index of
the first maximal entry); `none` models the `c10::Error` thrown on an empty
row. -/
def argmaxIdx (l : List Int) : Option Nat :=
  match l with
  | [] => none
  | x :: xs => some (argmaxGo xs x 0 1)
where
  /-- Scan remembering the best value, its index, and the current index. -/
  argmaxGo : List Int → Int → Nat → Nat → Nat
    | [], _, best, _ => best
    | y :: ys, bv, best, i =>
      if y > bv then argmaxGo ys y i (i + 1) else argmaxGo ys bv best (i + 1)

/-- The body of the `Postprocess` loop (source lines 162 to 187) for one
`(slotIndex, requestId)` map entry: select row `data[kv.first]` (an
out-of-range slot makes torch throw `c10::Error`), take the argmax (throws
`c10::Error` on an empty row), convert it to a string, and look it up in
`mapping_json_`; a missing key means `(*mapping_json_)[predicted_idx]`
inserts null and `.asString()` throws `folly::TypeError`, a
`std::runtime_error`. On success the response is
`SetResponse(200, "data_type", kDATA_TYPE_STRING, label)`. -/
def postOne (h : Handler) (data : List (List Int)) (slot : Nat) : Response :=
  match data[slot]? with
  | none => postprocessFailResponse .c10Error
  | some row =>
    match argmaxIdx row with
    | none => postprocessFailResponse .c10Error
    | some y_hat =>
      match h.labelMap.lookup (toString y_hat) with
      | none => postprocessFailResponse .runtimeError
      | some label =>
        { code := 200, headerKey := "data_type",
          contentType := kDATA_TYPE_STRING, body := label }

/-- The `Postprocess` loop over the `idx_to_req_id.second` map (iterated in
ascending key order): the list of `SetResponse` events it issues, one per map
entry. -/
def postLoop (h : Handler) (data : List (List Int)) :
    List (Nat × String) → List (String × Response)
  | [] => []
  | (k, id) :: rest => (id, postOne h data k) :: postLoop h data rest

/-- All `SetResponse` events of one batch cycle: those of `Preprocess`
followed by those of `Postprocess` run on the inference output `data` and the
slot map `Preprocess` built. -/
def batchEvents (h : Handler) (data : List (List Int))
    (batch : List InferenceRequest) : List (String × Response) :=
  let s := Preprocess h batch
  s.events ++ postLoop h data s.idxMap

/-! ## Model loading -/

/-- A folly::dynamic JSON value, restricted to the shapes the handler
touches. -/
inductive JValue where
  | null
  | str (s : String)
  | num (n : Int)
  | obj (fields : List (String × JValue))
deriving Repr

/-- Errors of the load path: `LoadJsonFile` throws when the file is missing
or `folly::parseJson` rejects the content; `GetJsonValue` throws when the key
is absent; `.asString()` throws `folly::TypeError` on a non-string value. -/
inductive LoadError where
  | fileNotFound
  | parseError
  | missingField
  | typeError
deriving Repr, DecidableEq

/-- `ResnetCppHandler::LoadJsonFile` (source lines 6 to 13): read the file
(throw if unreadable) and parse it with `folly::parseJson` (throws on invalid
JSON). The filesystem is a function from path to optional content; the parser
is folly, an external collaborator, passed in as a function. -/
def LoadJsonFile (parse : String → Option JValue) (fs : String → Option String)
    (file_path : String) : Except LoadError JValue :=
  match fs file_path with
  | none => .error .fileNotFound
  | some content =>
    match parse content with
    | none => .error .parseError
    | some v => .ok v

/-- `ResnetCppHandler::GetJsonValue` (source lines 15 to 22): return the
value at `key`, throwing when the field is absent (`json->find` on a
non-object folly::dynamic throws `folly::TypeError`). -/
def GetJsonValue (json : JValue) (key : String) : Except LoadError JValue :=
  match json with
  | .obj fields =>
    match fields.lookup key with
    | some v => .ok v
    | none => .error .missingField
  | _ => .error .typeError

/-- `folly::dynamic::asString` on the looked-up value. -/
def asString (v : JValue) : Except LoadError String :=
  match v with
  | .str s => .ok s
  | _ => .error .typeError

/-- The runner `LoadModel` constructs, keyed on the device: a CUDA runner
built from the artifact path and the device string, or a CPU runner built
from the artifact path alone. -/
inductive RunnerKind where
  | cuda (model_so_path : String) (deviceStr : String)
  | cpu (model_so_path : String)
deriving Repr, DecidableEq

/-- `ResnetCppHandler::LoadModel` (source lines 24 to 61), restricted to its
pure configuration work: load `index_to_name.json` into `mapping_json_`, load
`config.json` into `config_json_`, extract the `model_so_path` string, and
pick the runner by device. Runner construction itself is external. The result
carries the loaded `(mapping_json_, config_json_, runner)`. -/
def LoadModel (parse : String → Option JValue) (fs : String → Option String)
    (model_dir : String) (isCuda : Bool) (deviceStr : String) :
    Except LoadError (JValue × JValue × RunnerKind) := do
  let mapping ← LoadJsonFile parse fs (model_dir ++ "/index_to_name.json")
  let config ← LoadJsonFile parse fs (model_dir ++ "/config.json")
  let model_so_path ← (GetJsonValue config "model_so_path") >>= asString
  if isCuda then
    return (mapping, config, .cuda model_so_path deviceStr)
  else
    return (mapping, config, .cpu model_so_path)

/-! ## Concrete instances used by witnesses and counterexamples -/

/-- A concrete handler: `max_length_ = 4`, `pad_id = 9`, a tokenizer that
throws on the input `"boom"` and otherwise encodes each character as its code
point, and a two-class label map. -/
def h0 : Handler :=
  { maxLength := 4, padId := 9,
    tokenize := fun s =>
      if s = "boom" then .error .runtimeError
      else .ok (s.toList.map (fun c => (c.toNat : Int))),
    labelMap := [("0", "cat"), ("1", "dog")] }

/-- A request with a valid short payload (2 tokens). -/
def reqOk : InferenceRequest :=
  { request_id := "r1", parameters := [("data", "ab")],
    headers := [("data_type", "bytes")] }

/-- A request with neither a `data` nor a `body` parameter. -/
def reqEmpty : InferenceRequest :=
  { request_id := "r2", parameters := [], headers := [] }

/-- A request whose payload makes the tokenizer throw. -/
def reqBoom : InferenceRequest :=
  { request_id := "r3", parameters := [("data", "boom")],
    headers := [("data_type", "bytes")] }

/-- A request with an oversized payload (6 tokens against `maxLength = 4`). -/
def reqLong : InferenceRequest :=
  { request_id := "r4", parameters := [("data", "abcdef")],
    headers := [("data_type", "bytes")] }

/-- A request whose payload has exactly `maxLength = 4` tokens. -/
def reqExact : InferenceRequest :=
  { request_id := "r6", parameters := [("data", "abcd")],
    headers := [("data_type", "bytes")] }

/-- A request carrying a `data` parameter but no `data_type` header, while a
`body` parameter and a `body_type` header are both present. -/
def reqDataNoHdr : InferenceRequest :=
  { request_id := "r5", parameters := [("data", "ab"), ("body", "cd")],
    headers := [("body_type", "bytes")] }

/-- A handler for the large-batch counterexamples: every input tokenizes to
the empty sequence and `max_length_ = 0`, so every request passes
preprocessing at minimal cost. -/
def hBig : Handler :=
  { maxLength := 0, padId := 0, tokenize := fun _ => .ok [], labelMap := [] }

/-- A batch of 257 requests with distinct ids `"0"` to `"256"`, all of which
pass preprocessing, so that the `uint8_t` slot counter wraps around. -/
def bigBatch : List InferenceRequest :=
  (List.range 257).map (fun i =>
    { request_id := toString i, parameters := [("data", "x")],
      headers := [("data_type", "t")] })

/-- An inference output with one row per request of `bigBatch`. -/
def bigData : List (List Int) := List.replicate 257 [0]

/-- A concrete parser for the load witness: recognizes one fixed file
content. -/
def parse0 : String → Option JValue :=
  fun s =>
    if s = "cfg" then
      some (.obj [("model_so_path", .str "model.so"), ("0", .str "cat")])
    else none

/-- A concrete filesystem for the load witness. -/
def fsA : String → Option String := fun _ => some "cfg"

/-- A second filesystem definition with the same contents as `fsA` at every
path. -/
def fsB : String → Option String := fun p => if p = p then some "cfg" else none

/-! ## Projection lemmas for one `Preprocess` iteration -/

/-- Effect of one loop iteration on `batch_ivalue`: a passing request appends
its row, a failing one leaves it unchanged. -/
theorem preStep_batch_ivalue (h : Handler) (s : PreState)
    (req : InferenceRequest) :
    (preStep h s req).batch_ivalue =
      if passes h req then s.batch_ivalue ++ [rowOf h req]
      else s.batch_ivalue := by
  cases hfp : findPayload req with
  | none => simp [preStep, passes, hfp, stepCommon, emitResponse]
  | some msg =>
    cases htok : h.tokenize msg with
    | error e => simp [preStep, passes, hfp, htok, stepCommon, emitResponse]
    | ok toks => simp [preStep, passes, rowOf, hfp, htok, stepCommon]

/-- Effect of one loop iteration on the slot map. -/
theorem preStep_idxMap (h : Handler) (s : PreState) (req : InferenceRequest) :
    (preStep h s req).idxMap =
      if passes h req then mapAssign s.idxMap s.idx req.request_id
      else s.idxMap := by
  cases hfp : findPayload req with
  | none => simp [preStep, passes, hfp, stepCommon, emitResponse]
  | some msg =>
    cases htok : h.tokenize msg with
    | error e => simp [preStep, passes, hfp, htok, stepCommon, emitResponse]
    | ok toks => simp [preStep, passes, hfp, htok, stepCommon]

/-- Effect of one loop iteration on the `uint8_t` slot counter. -/
theorem preStep_idx (h : Handler) (s : PreState) (req : InferenceRequest) :
    (preStep h s req).idx =
      if passes h req then (s.idx + 1) % 256 else s.idx := by
  cases hfp : findPayload req with
  | none => simp [preStep, passes, hfp, stepCommon, emitResponse]
  | some msg =>
    cases htok : h.tokenize msg with
    | error e => simp [preStep, passes, hfp, htok, stepCommon, emitResponse]
    | ok toks => simp [preStep, passes, hfp, htok, stepCommon]

/-- Effect of one loop iteration on the `SetResponse` event list. -/
theorem preStep_events (h : Handler) (s : PreState) (req : InferenceRequest) :
    (preStep h s req).events = s.events ++ preEvent h req := by
  cases hfp : findPayload req with
  | none => simp [preStep, preEvent, hfp, stepCommon, emitResponse]
  | some msg =>
    cases htok : h.tokenize msg with
    | error e => simp [preStep, preEvent, hfp, htok, stepCommon, emitResponse]
    | ok toks => simp [preStep, preEvent, hfp, htok, stepCommon]

/-! ## Structure of the whole `Preprocess` loop -/

/-- Inserting a key greater than every key of a sorted map appends the new
entry at the end. -/
theorem mapAssign_append (m : List (Nat × String)) (k : Nat) (v : String)
    (hk : ∀ kv ∈ m, kv.1 < k) : mapAssign m k v = m ++ [(k, v)] := by
  induction m with
  | nil => rfl
  | cons kv0 rest ih =>
    have hlt : kv0.1 < k := hk kv0 (by simp)
    simp only [mapAssign]
    rw [if_neg (by omega), if_neg (by omega)]
    simp [ih (fun kv hkv => hk kv (by simp [hkv]))]

/-- The rows the loop appends: one per passing request, in batch order. -/
theorem preLoop_batch_app (h : Handler) (batch : List InferenceRequest)
    (s : PreState) :
    (preLoop h s batch).batch_ivalue
      = s.batch_ivalue ++ (batch.filter (passes h)).map (rowOf h) := by
  induction batch generalizing s with
  | nil => simp [preLoop]
  | cons req rest ih =>
    simp only [preLoop]
    rw [ih]
    cases hp : passes h req with
    | false =>
      rw [List.filter_cons_of_neg (by simp [hp])]
      rw [preStep_batch_ivalue, hp]
      simp
    | true =>
      rw [List.filter_cons_of_pos (by simp [hp])]
      rw [preStep_batch_ivalue, hp]
      simp

/-- The `SetResponse` events the loop issues. -/
theorem preLoop_events_app (h : Handler) (batch : List InferenceRequest)
    (s : PreState) :
    (preLoop h s batch).events = s.events ++ batch.flatMap (preEvent h) := by
  induction batch generalizing s with
  | nil => simp [preLoop]
  | cons req rest ih =>
    simp only [preLoop]
    rw [ih, preStep_events]
    simp

/-- A stretch of the loop in which no request passes leaves the slot map and
the slot counter unchanged. -/
theorem preLoop_nopass (h : Handler) (batch : List InferenceRequest)
    (s : PreState) (h0 : passCount h batch = 0) :
    (preLoop h s batch).idxMap = s.idxMap
    ∧ (preLoop h s batch).idx = s.idx := by
  induction batch generalizing s with
  | nil => exact ⟨rfl, rfl⟩
  | cons req rest ih =>
    have hp : passes h req = false := by
      by_contra hcon
      have : passes h req = true := by
        cases hpp : passes h req with
        | false => exact absurd hpp hcon
        | true => rfl
      unfold passCount at h0
      rw [List.filter_cons_of_pos (by simp [this])] at h0
      simp at h0
    have hrest : passCount h rest = 0 := by
      unfold passCount at h0 ⊢
      rwa [List.filter_cons_of_neg (by simp [hp])] at h0
    simp only [preLoop]
    have := ih (preStep h s req) hrest
    rw [this.1, this.2, preStep_idxMap, preStep_idx, hp]
    simp

/-- Main characterization of the slot map: starting from a state whose
counter is `n` and whose keys are all below `n`, and provided at most
`256 - n` further requests pass, the loop appends exactly the entries
`(n, id0), (n+1, id1), ...` for the passing requests in batch order, and the
counter advances by the number of passing requests, modulo 256. -/
theorem preLoop_idxMap_char (h : Handler) (batch : List InferenceRequest) :
    ∀ (s : PreState) (n : Nat), s.idx = n → (∀ kv ∈ s.idxMap, kv.1 < n) →
    n < 256 → n + passCount h batch ≤ 256 →
    (preLoop h s batch).idxMap
      = s.idxMap
        ++ List.enumFrom n ((batch.filter (passes h)).map (·.request_id))
    ∧ (preLoop h s batch).idx = (n + passCount h batch) % 256 := by
  induction batch with
  | nil =>
    intro s n hidx hkeys hn hbound
    refine ⟨by simp [preLoop], ?_⟩
    simp only [preLoop, passCount, List.filter_nil, List.length_nil,
      Nat.add_zero]
    rw [hidx, Nat.mod_eq_of_lt hn]
  | cons req rest ih =>
    intro s n hidx hkeys hn hbound
    cases hp : passes h req with
    | false =>
      have hpc : passCount h (req :: rest) = passCount h rest := by
        unfold passCount
        rw [List.filter_cons_of_neg (by simp [hp])]
      have hstep1 : (preStep h s req).idxMap = s.idxMap := by
        rw [preStep_idxMap, hp]; simp
      have hstep2 : (preStep h s req).idx = n := by
        rw [preStep_idx, hp]; simpa using hidx
      have := ih (preStep h s req) n hstep2 (by rw [hstep1]; exact hkeys) hn
        (by omega)
      simp only [preLoop]
      rw [this.1, this.2, hstep1, hpc,
        List.filter_cons_of_neg (by simp [hp])]
      trivial
    | true =>
      have hpc : passCount h (req :: rest) = passCount h rest + 1 := by
        unfold passCount
        rw [List.filter_cons_of_pos (by simp [hp])]
        simp [Nat.add_comm]
      have hstep1 : (preStep h s req).idxMap
          = s.idxMap ++ [(n, req.request_id)] := by
        rw [preStep_idxMap, hp, hidx]
        simp [mapAssign_append s.idxMap n req.request_id hkeys]
      have hstep2 : (preStep h s req).idx = (n + 1) % 256 := by
        rw [preStep_idx, hp, hidx]; simp
      have hfilter :
          (req :: rest).filter (passes h) = req :: rest.filter (passes h) :=
        List.filter_cons_of_pos (by simp [hp])
      by_cases hn1 : n + 1 < 256
      · have hmod : (n + 1) % 256 = n + 1 := Nat.mod_eq_of_lt hn1
        have hkeys1 : ∀ kv ∈ (preStep h s req).idxMap, kv.1 < n + 1 := by
          rw [hstep1]
          intro kv hkv
          rcases List.mem_append.mp hkv with hkv | hkv
          · exact Nat.lt_succ_of_lt (hkeys kv hkv)
          · rcases List.mem_singleton.mp hkv with rfl
            exact Nat.lt_succ_self n
        have := ih (preStep h s req) (n + 1) (by rw [hstep2, hmod])
          hkeys1 hn1 (by omega)
        simp only [preLoop]
        rw [this.1, this.2, hstep1, hpc, hfilter]
        constructor
        · simp [List.enumFrom_cons]
        · congr 1
          omega
      · have hn256 : n + 1 = 256 := by omega
        have hrest0 : passCount h rest = 0 := by omega
        have := preLoop_nopass h rest (preStep h s req) hrest0
        simp only [preLoop]
        rw [this.1, this.2, hstep1, hstep2, hpc, hfilter]
        have hfrest : rest.filter (passes h) = [] :=
          List.length_eq_zero.mp hrest0
        constructor
        · simp [hfrest, List.enumFrom_cons]
        · rw [hrest0]

/-- The second components of an enumeration are the original list. -/
theorem enumFrom_map_snd (l : List String) (n : Nat) :
    (List.enumFrom n l).map Prod.snd = l := by
  induction l generalizing n with
  | nil => rfl
  | cons a as ih => simp [List.enumFrom_cons, ih]

/-- Membership in an enumeration started at `n`: entry `(k, a)` is present
exactly when `k` is at least `n` and `a` sits at position `k - n`. -/
theorem enumFrom_mem_iff (l : List String) (n k : Nat) (a : String) :
    (k, a) ∈ List.enumFrom n l ↔ n ≤ k ∧ l[k - n]? = some a := by
  induction l generalizing n with
  | nil => simp
  | cons b bs ih =>
    simp only [List.enumFrom_cons, List.mem_cons, ih, Prod.mk.injEq]
    constructor
    · rintro (⟨rfl, rfl⟩ | ⟨hle, hget⟩)
      · simp
      · refine ⟨by omega, ?_⟩
        have hk : k - n = (k - (n + 1)) + 1 := by omega
        rw [hk]
        simpa using hget
    · rintro ⟨hle, hget⟩
      rcases Nat.eq_or_lt_of_le hle with rfl | hlt
      · left
        simp at hget
        exact ⟨rfl, hget.symm⟩
      · right
        refine ⟨by omega, ?_⟩
        have hk : k - n = (k - (n + 1)) + 1 := by omega
        rw [hk] at hget
        simpa using hget

/-- The ids of the `Postprocess` events are the values of the slot map, in
iteration order. -/
theorem postLoop_map_fst (h : Handler) (data : List (List Int))
    (m : List (Nat × String)) :
    (postLoop h data m).map Prod.fst = m.map Prod.snd := by
  induction m with
  | nil => rfl
  | cons kv rest ih =>
    cases kv with
    | mk k id => simp [postLoop, ih]

/-- Every `Postprocess` event is the `postOne` verdict for some map entry. -/
theorem postLoop_mem (h : Handler) (data : List (List Int))
    (m : List (Nat × String)) (e : String × Response)
    (he : e ∈ postLoop h data m) :
    ∃ kv ∈ m, e = (kv.2, postOne h data kv.1) := by
  induction m with
  | nil => simp [postLoop] at he
  | cons kv rest ih =>
    cases kv with
    | mk k id =>
      simp only [postLoop, List.mem_cons] at he
      rcases he with rfl | he
      · exact ⟨(k, id), by simp⟩
      · rcases ih he with ⟨kv2, hkv2, hekv⟩
        exact ⟨kv2, by simp [hkv2], hekv⟩

/-- The verdict of one `Postprocess` iteration has status 200 or 500. -/
theorem postOne_code (h : Handler) (data : List (List Int)) (slot : Nat) :
    (postOne h data slot).code = 200 ∨ (postOne h data slot).code = 500 := by
  rcases hd : data[slot]? with _ | row
  · right
    simp [postOne, hd, postprocessFailResponse]
  · rcases ha : argmaxIdx row with _ | y
    · right
      simp [postOne, hd, ha, postprocessFailResponse]
    · rcases hl : h.labelMap.lookup (toString y) with _ | label
      · right
        simp [postOne, hd, ha, hl, postprocessFailResponse]
      · left
        simp [postOne, hd, ha, hl]

/-- The ids of the `Preprocess` events are the ids of the failing requests,
in batch order. -/
theorem preEvents_map_fst (h : Handler) (batch : List InferenceRequest) :
    (batch.flatMap (preEvent h)).map Prod.fst
      = (batch.filter (fun r => ! passes h r)).map (·.request_id) := by
  induction batch with
  | nil => rfl
  | cons req rest ih =>
    have hone : (preEvent h req).map Prod.fst
        = if passes h req then [] else [req.request_id] := by
      rcases hfp : findPayload req with _ | msg
      · simp [preEvent, passes, hfp]
      · rcases htok : h.tokenize msg with e | toks
        · simp [preEvent, passes, hfp, htok]
        · simp [preEvent, passes, hfp, htok]
    simp only [List.flatMap_cons, List.map_append, ih, hone]
    cases hp : passes h req with
    | false =>
      rw [List.filter_cons_of_pos (by simp [hp])]
      simp
    | true =>
      rw [List.filter_cons_of_neg (by simp [hp])]
      simp

/-- Every `Preprocess` event carries status 500. -/
theorem preEvents_code (h : Handler) (batch : List InferenceRequest)
    (e : String × Response) (he : e ∈ batch.flatMap (preEvent h)) :
    e.2.code = 500 := by
  rcases List.mem_flatMap.mp he with ⟨req, _, hereq⟩
  rcases hfp : findPayload req with _ | msg
  · simp only [preEvent, hfp, List.mem_singleton] at hereq
    subst hereq
    rfl
  · rcases htok : h.tokenize msg with err | toks
    · simp only [preEvent, hfp, htok, List.mem_singleton] at hereq
      subst hereq
      cases err <;> rfl
    · simp only [preEvent, hfp, htok, List.not_mem_nil] at hereq

/-- Counting an id among the ids of a filtered batch: under distinct request
ids, a request of the batch contributes exactly when it satisfies the
filter. -/
theorem count_filter_ids (batch : List InferenceRequest)
    (p : InferenceRequest → Bool) (req : InferenceRequest)
    (hnodup : (batch.map (·.request_id)).Nodup) (hmem : req ∈ batch) :
    List.count req.request_id ((batch.filter p).map (·.request_id))
      = if p req then 1 else 0 := by
  induction batch with
  | nil => simp at hmem
  | cons b bs ih =>
    simp only [List.map_cons, List.nodup_cons] at hnodup
    rcases List.mem_cons.mp hmem with rfl | hmem2
    · have hz :
          List.count req.request_id ((bs.filter p).map (·.request_id)) = 0 := by
        rw [List.count_eq_zero]
        intro hin
        rcases List.mem_map.mp hin with ⟨r, hr, hrid⟩
        exact hnodup.1 (List.mem_map.mpr
          ⟨r, List.mem_of_mem_filter hr, hrid⟩)
      cases hp : p req with
      | false =>
        rw [List.filter_cons_of_neg (by simp [hp])]
        simpa using hz
      | true =>
        rw [List.filter_cons_of_pos (by simp [hp])]
        simp [List.count_cons, hz]
    · have hid : req.request_id ≠ b.request_id := by
        intro heq
        exact hnodup.1 (heq ▸ List.mem_map.mpr ⟨req, hmem2, rfl⟩)
      have ihr := ih hnodup.2 hmem2
      cases hp : p b with
      | false =>
        rw [List.filter_cons_of_neg (by simp [hp])]
        exact ihr
      | true =>
        rw [List.filter_cons_of_pos (by simp [hp])]
        simp only [List.map_cons, List.count_cons, ihr]
        simp [hid.symm]

/-- Counting events keyed by an id equals counting the id among the event
ids. -/
theorem countP_fst_eq_count (l : List (String × Response)) (id : String) :
    l.countP (fun e => e.1 == id) = List.count id (l.map Prod.fst) := by
  rw [List.count, List.countP_map]
  rfl

/-! ## C1: empty payload -/

/-- C1 counterexample: a request with neither payload field receives status
500, not 400 as the claim states, so the claim is false at this input. -/
theorem emptyPayload_status_not_400 :
    (Preprocess h0 [reqEmpty]).events = [("r2", emptyPayloadResponse)]
    ∧ emptyPayloadResponse.code = 500
    ∧ ¬ emptyPayloadResponse.code = 400 := by
  refine ⟨by rfl, rfl, by decide⟩

/-- C1 (amended): for every batch, a request whose parameters contain neither
the primary data field nor the fallback body field receives a Response with
status 500 (body `"Empty payload"`) and is excluded from the batch tensor and
from the IndexMap: no row is appended and no slot entry is recorded. -/
theorem emptyPayload_response_500_and_excluded (h : Handler) (s : PreState)
    (req : InferenceRequest)
    (hdata : req.parameters.lookup kPARAMETER_NAME_DATA = none)
    (hbody : req.parameters.lookup kPARAMETER_NAME_BODY = none) :
    (preStep h s req).events
      = s.events ++ [(req.request_id, emptyPayloadResponse)]
    ∧ (preStep h s req).batch_ivalue = s.batch_ivalue
    ∧ (preStep h s req).idxMap = s.idxMap
    ∧ emptyPayloadResponse.code = 500 := by
  have hfp : findPayload req = none := by
    simp [findPayload, hdata, hbody]
  have hpass : passes h req = false := by simp [passes, hfp]
  refine ⟨?_, ?_, ?_, rfl⟩
  · rw [preStep_events]; simp [preEvent, hfp]
  · rw [preStep_batch_ivalue, hpass]; simp
  · rw [preStep_idxMap, hpass]; simp

/-- C1 witness: the amended statement at the concrete empty request. -/
theorem emptyPayload_response_500_and_excluded_witness :
    (preStep h0 initState reqEmpty).events
      = initState.events ++ [(reqEmpty.request_id, emptyPayloadResponse)]
    ∧ (preStep h0 initState reqEmpty).batch_ivalue = initState.batch_ivalue
    ∧ (preStep h0 initState reqEmpty).idxMap = initState.idxMap
    ∧ emptyPayloadResponse.code = 500 :=
  emptyPayload_response_500_and_excluded h0 initState reqEmpty rfl rfl

/-! ## C10: data parameter present, data-type header absent -/

/-- C10: when the `data` parameter is present but the `data_type` header is
absent, `Preprocess` does not fall back to the `body` field (even when `body`
and `body_type` are present): the request is treated as an empty payload,
receives the error Response, and contributes no row and no slot entry. -/
theorem data_without_type_header_no_fallback (h : Handler) (s : PreState)
    (req : InferenceRequest) (v : String)
    (hdata : req.parameters.lookup kPARAMETER_NAME_DATA = some v)
    (hhdr : req.headers.lookup kHEADER_NAME_DATA_TYPE = none) :
    (preStep h s req).events
      = s.events ++ [(req.request_id, emptyPayloadResponse)]
    ∧ (preStep h s req).batch_ivalue = s.batch_ivalue
    ∧ (preStep h s req).idxMap = s.idxMap := by
  have hfp : findPayload req = none := by
    simp [findPayload, hdata, hhdr]
  have hpass : passes h req = false := by simp [passes, hfp]
  refine ⟨?_, ?_, ?_⟩
  · rw [preStep_events]; simp [preEvent, hfp]
  · rw [preStep_batch_ivalue, hpass]; simp
  · rw [preStep_idxMap, hpass]; simp

/-- C10 witness: the statement at a request that carries `data`, `body` and
`body_type` but no `data_type` header, showing no fallback happens. -/
theorem data_without_type_header_no_fallback_witness :
    (preStep h0 initState reqDataNoHdr).events
      = initState.events ++ [(reqDataNoHdr.request_id, emptyPayloadResponse)]
    ∧ (preStep h0 initState reqDataNoHdr).batch_ivalue
      = initState.batch_ivalue
    ∧ (preStep h0 initState reqDataNoHdr).idxMap = initState.idxMap :=
  data_without_type_header_no_fallback h0 initState reqDataNoHdr "ab" rfl rfl

/-! ## C3, C4, C5: padding and length handling -/

/-- C3: a request whose token sequence is strictly shorter than `maxLength`
contributes a row that is the original tokens followed only by `padId`
values, of length exactly `maxLength`. -/
theorem short_sequence_right_padded (h : Handler) (s : PreState)
    (req : InferenceRequest) (msg : String) (toks : List Int)
    (hfp : findPayload req = some msg) (htok : h.tokenize msg = .ok toks)
    (hlen : toks.length < h.maxLength) :
    (preStep h s req).batch_ivalue =
      s.batch_ivalue
        ++ [toks ++ List.replicate (h.maxLength - toks.length) h.padId]
    ∧ (toks ++ List.replicate (h.maxLength - toks.length) h.padId).length
        = h.maxLength := by
  have hplen :
      (toks ++ List.replicate (h.maxLength - toks.length) h.padId).length
        = h.maxLength := by
    simp only [List.length_append, List.length_replicate]
    omega
  have hpass : passes h req = true := by simp [passes, hfp, htok]
  refine ⟨?_, hplen⟩
  rw [preStep_batch_ivalue, hpass]
  have hrow : rowOf h req
      = toks ++ List.replicate (h.maxLength - toks.length) h.padId := by
    simp only [rowOf, hfp, htok]
    rw [if_neg (by omega), if_pos hlen,
      List.take_of_length_le (le_of_eq hplen)]
  simp [hrow]

/-- C3 witness: the concrete short request (2 tokens against
`maxLength = 4`). -/
theorem short_sequence_right_padded_witness :
    (preStep h0 initState reqOk).batch_ivalue =
      initState.batch_ivalue
        ++ [[(97 : Int), 98]
              ++ List.replicate (h0.maxLength - [(97 : Int), 98].length)
                  h0.padId]
    ∧ ([(97 : Int), 98]
        ++ List.replicate (h0.maxLength - [(97 : Int), 98].length)
            h0.padId).length = h0.maxLength :=
  short_sequence_right_padded h0 initState reqOk "ab" [97, 98] rfl rfl
    (by decide)

/-- C4 counterexample: with `maxLength = 4`, a 6-token request passes a row of
only the first 4 tokens to the batch tensor, so the row is not the
untruncated token sequence as the claim states. -/
theorem oversized_row_not_untruncated :
    h0.tokenize "abcdef" = .ok [97, 98, 99, 100, 101, 102]
    ∧ 4 < ([(97 : Int), 98, 99, 100, 101, 102]).length
    ∧ h0.maxLength = 4
    ∧ (Preprocess h0 [reqLong]).batch_ivalue = [[97, 98, 99, 100]]
    ∧ (Preprocess h0 [reqLong]).batch_ivalue
        ≠ [[(97 : Int), 98, 99, 100, 101, 102]] := by
  refine ⟨by rfl, by decide, rfl, by rfl, by decide⟩

/-- C4 (amended): for a request whose token sequence is strictly longer than
`maxLength`, `Preprocess` only logs and leaves the token vector untruncated,
but the row handed to the batch tensor is built by
`torch::from_blob(token_ids.data(), max_length_)`, so it consists of exactly
the first `maxLength` tokens and has length `maxLength`, not the untruncated
sequence. -/
theorem oversized_sequence_row_first_maxLength (h : Handler) (s : PreState)
    (req : InferenceRequest) (msg : String) (toks : List Int)
    (hfp : findPayload req = some msg) (htok : h.tokenize msg = .ok toks)
    (hlen : h.maxLength < toks.length) :
    (preStep h s req).batch_ivalue
      = s.batch_ivalue ++ [toks.take h.maxLength]
    ∧ (toks.take h.maxLength).length = h.maxLength := by
  have hpass : passes h req = true := by simp [passes, hfp, htok]
  have htake : (toks.take h.maxLength).length = h.maxLength := by
    simp only [List.length_take]
    omega
  refine ⟨?_, htake⟩
  rw [preStep_batch_ivalue, hpass]
  have hrow : rowOf h req = toks.take h.maxLength := by
    simp only [rowOf, hfp, htok]
    rw [if_pos hlen]
  simp [hrow]

/-- C4 witness: the amended statement at the concrete 6-token request. -/
theorem oversized_sequence_row_first_maxLength_witness :
    (preStep h0 initState reqLong).batch_ivalue
      = initState.batch_ivalue
          ++ [([(97 : Int), 98, 99, 100, 101, 102]).take h0.maxLength]
    ∧ (([(97 : Int), 98, 99, 100, 101, 102]).take h0.maxLength).length
        = h0.maxLength :=
  oversized_sequence_row_first_maxLength h0 initState reqLong "abcdef"
    [97, 98, 99, 100, 101, 102] rfl rfl (by decide)

/-- C5: a request whose token sequence has length exactly `maxLength`
contributes its tokenizer output as the row, unpadded and unmodified. -/
theorem exact_length_sequence_unmodified (h : Handler) (s : PreState)
    (req : InferenceRequest) (msg : String) (toks : List Int)
    (hfp : findPayload req = some msg) (htok : h.tokenize msg = .ok toks)
    (hlen : toks.length = h.maxLength) :
    (preStep h s req).batch_ivalue = s.batch_ivalue ++ [toks] := by
  have hpass : passes h req = true := by simp [passes, hfp, htok]
  rw [preStep_batch_ivalue, hpass]
  have hrow : rowOf h req = toks := by
    simp only [rowOf, hfp, htok]
    rw [if_neg (by omega), if_neg (by omega), ← hlen, List.take_length]
  simp [hrow]

/-- C5 witness: the concrete request with exactly 4 tokens. -/
theorem exact_length_sequence_unmodified_witness :
    (preStep h0 initState reqExact).batch_ivalue
      = initState.batch_ivalue ++ [[(97 : Int), 98, 99, 100]] :=
  exact_length_sequence_unmodified h0 initState reqExact "abcd"
    [97, 98, 99, 100] rfl rfl (by decide)

/-! ## C6: label lookup in Postprocess -/

/-- C6: for a slot whose output row exists, `Postprocess` computes the argmax
index `i` of that row and, when the key `str(i)` is present in the label map,
sets the response for the slot to status 200 with body `LabelMap[str(i)]`;
being an equation of a function of the inputs, the mapping is
deterministic. -/
theorem postprocess_label_lookup_200 (h : Handler) (data : List (List Int))
    (slot : Nat) (row : List Int) (i : Nat) (label : String)
    (hrow : data[slot]? = some row) (hargmax : argmaxIdx row = some i)
    (hlabel : h.labelMap.lookup (toString i) = some label) :
    postOne h data slot =
      { code := 200, headerKey := "data_type",
        contentType := kDATA_TYPE_STRING, body := label }
    ∧ ∀ (id : String) (rest : List (Nat × String)),
        postLoop h data ((slot, id) :: rest)
          = (id, postOne h data slot) :: postLoop h data rest := by
  refine ⟨?_, fun id rest => rfl⟩
  simp [postOne, hrow, hargmax, hlabel]

/-- C6 witness: the spec scenario, label map `{"0": "cat", "1": "dog"}` and a
row whose argmax index is 1, yielding body `"dog"` with status 200. -/
theorem postprocess_label_lookup_200_witness :
    (postOne h0 [[1, 5]] 0 =
      { code := 200, headerKey := "data_type",
        contentType := kDATA_TYPE_STRING, body := "dog" }
    ∧ ∀ (id : String) (rest : List (Nat × String)),
        postLoop h0 [[1, 5]] ((0, id) :: rest)
          = (id, postOne h0 [[1, 5]] 0) :: postLoop h0 [[1, 5]] rest) :=
  postprocess_label_lookup_200 h0 [[1, 5]] 0 [1, 5] 1 "dog" rfl rfl rfl

/-! ## C8: Inference result handling -/

/-- C8: on success `Inference` returns exactly the first output tensor of the
runner; when the runner throws, the error is only logged and control falls
off the end of the function, so the caller receives the default value, which
is not distinguishable from a successful empty output. -/
theorem inference_first_output_or_default :
    (∀ (t : List (List Int)) (rest : List (List (List Int))),
        Inference (.ok (t :: rest)) = t)
    ∧ (∀ e : CppError, Inference (.err e) = defaultIValue)
    ∧ (∀ e : CppError, Inference (.err e) = Inference (.ok [])) :=
  ⟨fun _ _ => rfl, fun _ => rfl, fun _ => rfl⟩

/-! ## C7: IndexMap and batch tensor after Preprocess -/

set_option maxRecDepth 100000 in
/-- C7 counterexample: in a batch of 257 requests that all pass
preprocessing, the `uint8_t` slot counter wraps and the entry of the first
request (id `"0"`) is overwritten, so the IndexMap does not contain an entry
for every passing request (256 entries against 257 rows), contrary to the
claim. -/
theorem uint8_wrap_overwrites_idxMap :
    (bigBatch.map (·.request_id))[0]? = some "0"
    ∧ passCount hBig bigBatch = 257
    ∧ (Preprocess hBig bigBatch).batch_ivalue.length = 257
    ∧ (Preprocess hBig bigBatch).idxMap.length = 256
    ∧ "0" ∉ (Preprocess hBig bigBatch).idxMap.map Prod.snd := by
  decide

/-- C7 (amended): provided at most 256 requests of the batch pass
preprocessing (the slot counter is an 8-bit value), after `Preprocess` the
IndexMap is exactly the enumeration of the ids of the passing requests in
processing order, the batch tensor has exactly one row per passing request
in the same order, and slot `k` holds the id of the `k`-th successfully
preprocessed request. -/
theorem idxMap_enumerates_passing_requests (h : Handler)
    (batch : List InferenceRequest) (hbound : passCount h batch ≤ 256) :
    (Preprocess h batch).idxMap
      = List.enumFrom 0 ((batch.filter (passes h)).map (·.request_id))
    ∧ (Preprocess h batch).batch_ivalue
      = (batch.filter (passes h)).map (rowOf h)
    ∧ ∀ (k : Nat) (id : String),
        (k, id) ∈ (Preprocess h batch).idxMap
          ↔ ((batch.filter (passes h)).map (·.request_id))[k]? = some id := by
  have hchar := preLoop_idxMap_char h batch initState 0 rfl
    (by simp [initState]) (by omega) (by omega)
  refine ⟨?_, ?_, ?_⟩
  · simp only [Preprocess]
    rw [hchar.1]
    simp [initState]
  · simp only [Preprocess]
    rw [preLoop_batch_app]
    simp [initState]
  · intro k id
    simp only [Preprocess]
    rw [hchar.1]
    simp only [initState, List.nil_append]
    rw [enumFrom_mem_iff]
    simp

/-- C7 witness: the amended statement at a concrete three-request batch with
two passing requests. -/
theorem idxMap_enumerates_passing_requests_witness :
    (Preprocess h0 [reqOk, reqEmpty, reqLong]).idxMap
      = List.enumFrom 0
          (([reqOk, reqEmpty, reqLong].filter (passes h0)).map (·.request_id))
    ∧ (Preprocess h0 [reqOk, reqEmpty, reqLong]).batch_ivalue
      = ([reqOk, reqEmpty, reqLong].filter (passes h0)).map (rowOf h0)
    ∧ ∀ (k : Nat) (id : String),
        (k, id) ∈ (Preprocess h0 [reqOk, reqEmpty, reqLong]).idxMap
          ↔ (([reqOk, reqEmpty, reqLong].filter
                (passes h0)).map (·.request_id))[k]? = some id :=
  idxMap_enumerates_passing_requests h0 [reqOk, reqEmpty, reqLong] (by decide)

/-! ## C2: exactly one terminal response per request -/

set_option maxRecDepth 100000 in
/-- C2 counterexample: in a batch of 257 requests that all pass
preprocessing, the request with id `"0"` is present at batch entry but
receives no `SetResponse` at all during the whole cycle — its IndexMap entry
was overwritten by the wrapped slot counter — contradicting the claim that
every request receives exactly one terminal Response. -/
theorem uint8_wrap_drops_response :
    "0" ∈ bigBatch.map (·.request_id)
    ∧ (batchEvents hBig bigData bigBatch).countP (fun e => e.1 == "0") = 0 := by
  decide

/-- C2 (amended): for every batch with distinct request ids in which at most
256 requests pass preprocessing (the slot counter is an 8-bit value), every
request present at batch entry has exactly one terminal Response at batch
exit, with status in {200, 400, 500}: a failing request is answered exactly
once by `Preprocess` and never by `Postprocess`, a passing one exactly once
by `Postprocess` (on success or postprocessing failure) and never by
`Preprocess`. -/
theorem every_request_exactly_one_terminal_response (h : Handler)
    (data : List (List Int)) (batch : List InferenceRequest)
    (hnodup : (batch.map (·.request_id)).Nodup)
    (hbound : passCount h batch ≤ 256)
    (req : InferenceRequest) (hmem : req ∈ batch) :
    ((Preprocess h batch).events.countP (fun e => e.1 == req.request_id))
      = (if passes h req then 0 else 1)
    ∧ ((postLoop h data (Preprocess h batch).idxMap).countP
        (fun e => e.1 == req.request_id)) = (if passes h req then 1 else 0)
    ∧ ((batchEvents h data batch).countP (fun e => e.1 == req.request_id)) = 1
    ∧ ∀ e ∈ batchEvents h data batch, e.1 = req.request_id →
        e.2.code = 200 ∨ e.2.code = 400 ∨ e.2.code = 500 := by
  have hevents : (Preprocess h batch).events = batch.flatMap (preEvent h) := by
    simp only [Preprocess]
    rw [preLoop_events_app]
    simp [initState]
  have hidxmap : (Preprocess h batch).idxMap
      = List.enumFrom 0 ((batch.filter (passes h)).map (·.request_id)) := by
    have hchar := preLoop_idxMap_char h batch initState 0 rfl
      (by simp [initState]) (by omega) (by omega)
    simp only [Preprocess]
    rw [hchar.1]
    simp [initState]
  have hprecount :
      ((Preprocess h batch).events.countP (fun e => e.1 == req.request_id))
        = (if passes h req then 0 else 1) := by
    rw [hevents, countP_fst_eq_count, preEvents_map_fst,
      count_filter_ids batch (fun r => ! passes h r) req hnodup hmem]
    cases hp : passes h req <;> simp [hp]
  have hpostcount :
      ((postLoop h data (Preprocess h batch).idxMap).countP
        (fun e => e.1 == req.request_id)) = (if passes h req then 1 else 0) := by
    rw [countP_fst_eq_count, postLoop_map_fst, hidxmap, enumFrom_map_snd,
      count_filter_ids batch (passes h) req hnodup hmem]
  have happ : batchEvents h data batch
      = (Preprocess h batch).events
        ++ postLoop h data (Preprocess h batch).idxMap := rfl
  refine ⟨hprecount, hpostcount, ?_, ?_⟩
  · rw [happ, List.countP_append, hprecount, hpostcount]
    cases hp : passes h req <;> simp
  · intro e he hid
    rw [happ] at he
    rcases List.mem_append.mp he with he1 | he2
    · rw [hevents] at he1
      right; right
      exact preEvents_code h batch e he1
    · rcases postLoop_mem h data _ e he2 with ⟨kv, _, rfl⟩
      rcases postOne_code h data kv.1 with h200 | h500
      · left; exact h200
      · right; right; exact h500

/-- C2 witness: the amended statement at a concrete two-request batch (one
passing, one failing) and a concrete output tensor. -/
theorem every_request_exactly_one_terminal_response_witness :
    ((Preprocess h0 [reqOk, reqEmpty]).events.countP
        (fun e => e.1 == reqOk.request_id))
      = (if passes h0 reqOk then 0 else 1)
    ∧ ((postLoop h0 [[0, 7]] (Preprocess h0 [reqOk, reqEmpty]).idxMap).countP
        (fun e => e.1 == reqOk.request_id))
      = (if passes h0 reqOk then 1 else 0)
    ∧ ((batchEvents h0 [[0, 7]] [reqOk, reqEmpty]).countP
        (fun e => e.1 == reqOk.request_id)) = 1
    ∧ ∀ e ∈ batchEvents h0 [[0, 7]] [reqOk, reqEmpty],
        e.1 = reqOk.request_id →
        e.2.code = 200 ∨ e.2.code = 400 ∨ e.2.code = 500 :=
  every_request_exactly_one_terminal_response h0 [[0, 7]] [reqOk, reqEmpty]
    (by decide) (by decide) reqOk (by decide)

/-! ## C9: determinism of model loading -/

/-- C9: loading the same model directory twice with identical file contents
produces identical results: `LoadModel` is a function of the file contents,
so two filesystems that agree pointwise give equal `mapping_json_`,
`config_json_` and runner configuration. -/
theorem loadModel_deterministic_in_contents
    (parse : String → Option JValue) (fs1 fs2 : String → Option String)
    (model_dir : String) (isCuda : Bool) (deviceStr : String)
    (hfs : ∀ p, fs1 p = fs2 p) :
    LoadModel parse fs1 model_dir isCuda deviceStr
      = LoadModel parse fs2 model_dir isCuda deviceStr := by
  simp only [LoadModel, LoadJsonFile, hfs]

/-- C9 witness: two syntactically different filesystems with the same
contents at every path give the same load result. -/
theorem loadModel_deterministic_in_contents_witness :
    LoadModel parse0 fsA "dir" false "cpu"
      = LoadModel parse0 fsB "dir" false "cpu" :=
  loadModel_deterministic_in_contents parse0 fsA fsB "dir" false "cpu"
    (fun p => by simp [fsA, fsB])

end Resnet
